import Mathlib

/-!
Verification of the preference-driven ranking and query-biasing subsystem of
otodoki2web: the Preference Analyzer (`app/services/preference_analyzer.py`),
the Personalization Service (`app/services/personalization.py`), the
user-preference search strategy
(`app/services/search_strategies/user_preference_search.py`) and the strategy
registry (`app/services/search_strategies/__init__.py`).

Modelling conventions for the shallow embedding:
* Python string fields that may be `None` or `""` (both falsy under
  `if track.genre:`) are modelled as `String`, with `""` standing for
  "absent or empty"; every truthiness test in the source becomes a `!= ""`
  test.
* Scores are `float` in Python but every value produced by `_score_track`
  is an exact small integer (sums of `10.0 + count`, `-5.0`,
  `15.0 + 2.0 * count`, `-10.0`), so scores are modelled as `Int`.
* Database reads and other fallible effects are modelled as `Except String`
  values passed in explicitly; a caught Python exception corresponds to the
  `.error` case.
* `random.random()` is modelled as an explicit rational `randVal` in the
  random-source record, and `random.choice(l)` as indexing `l` with an
  explicit natural number reduced mod `l.length`.
* Python's `list.sort(key=..., reverse=True)` is a stable descending sort by
  key; it is embedded as the stable insertion sort `sortDescBy` below.
* `collections.Counter(xs).most_common()` counts occurrences, with keys in
  first-encountered (dict insertion) order, then stable-sorts descending by
  count; it is embedded as `sortDescBy` over `countOcc`.
-/

namespace Otodoki

/-- Stable insertion of `x` into `l` for a descending sort by `key`:
`x` is placed before the first element whose key is `≤ key x`, hence after
every earlier element with a strictly greater key and before equal-key
elements that were inserted later. -/
def insertDescBy {α : Type} (key : α → Int) (x : α) : List α → List α
  | [] => [x]
  | y :: l => if key x < key y then y :: insertDescBy key x l else x :: y :: l

/-- Stable descending sort by `key`, the embedding of Python's
`list.sort(key=..., reverse=True)` (Timsort is stable; `reverse=True`
reverses the comparison, not the result). -/
def sortDescBy {α : Type} (key : α → Int) : List α → List α
  | [] => []
  | x :: l => insertDescBy key x (sortDescBy key l)

/-- The distinct elements of `l` in first-encountered order, the key order of
a CPython `Counter`/`dict` built by scanning `l`. -/
def firstSeenKeys : List String → List String
  | [] => []
  | x :: l => x :: (firstSeenKeys l).filter (fun y => y != x)

/-- `Counter(l)` as an association list in first-encountered key order. -/
def countOcc (l : List String) : List (String × Nat) :=
  (firstSeenKeys l).map (fun k => (k, l.count k))

/-- `Counter(l).most_common()`: pairs sorted descending by count, ties in
first-encountered order (CPython sorts the insertion-ordered items with a
stable sort). -/
def mostCommon (l : List String) : List (String × Nat) :=
  sortDescBy (fun p => (p.2 : Int)) (countOcc l)

/-- A persisted catalog record (`TrackCache`): the analyzer only reads
`primary_genre` and `artist`. `""` models an absent/empty field. -/
structure TrackCache where
  primary_genre : String
  artist : String
deriving DecidableEq, Repr

/-- The request-time track DTO (`Track`): personalization only reads
`genre` and `artist`. `""` models an absent/empty field. -/
structure Track where
  genre : String
  artist : String
deriving DecidableEq, Repr

/-- `UserPreferences` from `preference_analyzer.py`. -/
structure UserPreferences where
  liked_genres : List (String × Nat)
  liked_artists : List (String × Nat)
  disliked_genres : List (String × Nat)
  disliked_artists : List (String × Nat)
  total_likes : Nat
  total_dislikes : Nat
deriving DecidableEq, Repr

/-- `UserPreferences.get_top_genres`. -/
def UserPreferences.get_top_genres (p : UserPreferences) (limit : Nat) : List String :=
  (p.liked_genres.take limit).map Prod.fst

/-- `UserPreferences.get_top_artists`. -/
def UserPreferences.get_top_artists (p : UserPreferences) (limit : Nat) : List String :=
  (p.liked_artists.take limit).map Prod.fst

/-- `PreferenceAnalyzer._count_genres`: keep non-empty `primary_genre`
values, count them, return `most_common()`. -/
def count_genres (tracks : List TrackCache) : List (String × Nat) :=
  mostCommon ((tracks.map TrackCache.primary_genre).filter (fun g => g != ""))

/-- `PreferenceAnalyzer._count_artists`: keep non-empty `artist` values,
count them, return `most_common()`. -/
def count_artists (tracks : List TrackCache) : List (String × Nat) :=
  mostCommon ((tracks.map TrackCache.artist).filter (fun a => a != ""))

/-- `PreferenceAnalyzer.analyze_preferences`. The two read queries are
passed in as `Except` values; a raised exception anywhere in the `try`
block (modelled by an `.error` read) is caught and yields `none`.
`min_likes` is an `Int` so that non-positive thresholds are representable. -/
def analyze_preferences (likedRead dislikedRead : Except String (List TrackCache))
    (min_likes : Int) : Option UserPreferences :=
  match likedRead with
  | .error _ => none
  | .ok liked_tracks =>
    match dislikedRead with
    | .error _ => none
    | .ok disliked_tracks =>
      if (liked_tracks.length : Int) < min_likes then none
      else
        some { liked_genres := count_genres liked_tracks
               liked_artists := count_artists liked_tracks
               disliked_genres := count_genres disliked_tracks
               disliked_artists := count_artists disliked_tracks
               total_likes := liked_tracks.length
               total_dislikes := disliked_tracks.length }

/-- Python `dict(pairs)[key]` lookup (`key in dict` plus access): the last
pair with the given key wins. -/
def dictLookup (pairs : List (String × Nat)) (key : String) : Option Nat :=
  pairs.foldl (fun acc p => if p.1 = key then some p.2 else acc) none

/-- `PersonalizationService._score_track`: starts at `0.0`, then the genre
block (liked: `+10 + count`; disliked: `-5`) guarded by `if track.genre:`,
then the artist block (liked: `+15 + 2*count`; disliked: `-10`) guarded by
`if track.artist:`. -/
def score_track (track : Track) (preferences : UserPreferences) : Int :=
  let score : Int := 0
  let score : Int :=
    if track.genre != "" then
      let score : Int :=
        match dictLookup preferences.liked_genres track.genre with
        | some count => score + 10 + (count : Int)
        | none => score
      match dictLookup preferences.disliked_genres track.genre with
      | some _ => score - 5
      | none => score
    else score
  let score : Int :=
    if track.artist != "" then
      let score : Int :=
        match dictLookup preferences.liked_artists track.artist with
        | some count => score + 15 + 2 * (count : Int)
        | none => score
      match dictLookup preferences.disliked_artists track.artist with
      | some _ => score - 10
      | none => score
    else score
  score

/-- `PersonalizationService.personalize_tracks`. The analyzer call is passed
in as an `Except` value; `.error` models an exception raised inside the
`try` block, which is caught and yields the original list. On the success
path the tracks are paired with their scores and stable-sorted descending
by score. -/
def personalize_tracks (analyzerResult : Except String (Option UserPreferences))
    (tracks : List Track) : List Track :=
  if tracks.isEmpty then tracks
  else
    match analyzerResult with
    | .error _ => tracks
    | .ok none => tracks
    | .ok (some preferences) =>
      let scored_tracks := tracks.map (fun t => (t, score_track t preferences))
      (sortDescBy (fun x => x.2) scored_tracks).map Prod.fst

/-- The scoring list comprehension of `personalize_tracks` with a scorer
that may raise: tracks are scored left to right and the first exception
propagates (to the surrounding `try`). -/
def scoreAll (scorer : Track → Except String Int) :
    List Track → Except String (List (Track × Int))
  | [] => .ok []
  | t :: ts =>
    match scorer t with
    | .error e => .error e
    | .ok s =>
      match scoreAll scorer ts with
      | .error e => .error e
      | .ok rest => .ok ((t, s) :: rest)

/-- `personalize_tracks` with the per-track scoring step itself allowed to
fail, modelling the fact that the `try` block of the source also covers the
scoring/sorting phase: if scoring any track raises, the exception is caught
and the original list is returned. -/
def personalize_tracks_fallible (analyzerResult : Except String (Option UserPreferences))
    (scorer : UserPreferences → Track → Except String Int)
    (tracks : List Track) : List Track :=
  if tracks.isEmpty then tracks
  else
    match analyzerResult with
    | .error _ => tracks
    | .ok none => tracks
    | .ok (some preferences) =>
      match scoreAll (scorer preferences) tracks with
      | .error _ => tracks
      | .ok scored_tracks => (sortDescBy (fun x => x.2) scored_tracks).map Prod.fst

/-- iTunes search parameters `{term, entity, attribute?}` produced by a
search strategy. -/
structure SearchParams where
  term : String
  entity : String
  attr : Option String
deriving DecidableEq, Repr

/-- An explicit random source for one `generate_params` invocation:
`randVal` is the value of `random.random()` (uniform on `[0,1)`), and the
three indices model the uniform picks of `random.choice`, reduced modulo
the length of the list being chosen from. -/
structure Rand where
  randVal : ℚ
  genreIdx : Nat
  artistIdx : Nat
  fallbackIdx : Nat
deriving DecidableEq, Repr

/-- The fixed fallback vocabulary of
`UserPreferenceSearchStrategy._fallback_params`. -/
def default_terms : List String := ["pop", "rock", "jazz", "electronic", "indie"]

/-- `UserPreferenceSearchStrategy._fallback_params`: a uniformly chosen
generic term, entity `"song"`, no attribute key. -/
def fallback_params (r : Rand) : SearchParams :=
  { term := default_terms.getD (r.fallbackIdx % default_terms.length) ""
    entity := "song"
    attr := none }

/-- `random.choice(l)` for the guarded picks from a top-3 list: `none`
exactly when the list is empty (the source guards the choice with a
truthiness test on the list). -/
def chooseFrom {α : Type} (l : List α) (i : Nat) : Option α :=
  l.get? (i % l.length)

/-- `UserPreferenceSearchStrategy._generate_preference_based_params`:
with probability 0.7 (`random.random() < 0.7`) try a genre-biased query
from the top-3 liked genres; otherwise, or when no liked genre exists, an
artist-biased query from the top-3 liked artists; otherwise fallback. -/
def generate_preference_based_params (preferences : Option UserPreferences)
    (r : Rand) : SearchParams :=
  match preferences with
  | none => fallback_params r
  | some p =>
    let use_genre := r.randVal < 7 / 10
    let genreParams : Option SearchParams :=
      if use_genre then
        match chooseFrom (p.get_top_genres 3) r.genreIdx with
        | some genre => some { term := genre, entity := "song", attr := some "genreIndex" }
        | none => none
      else none
    match genreParams with
    | some params => params
    | none =>
      match chooseFrom (p.get_top_artists 3) r.artistIdx with
      | some artist => { term := artist, entity := "song", attr := some "artistTerm" }
      | none => fallback_params r

/-- The mutable fields of a `UserPreferenceSearchStrategy` instance.
`session` is the truthiness of the store handle; `user_id` is the optional
user identifier (`some ""` is falsy in Python, like `None`). -/
structure StrategyState where
  session : Bool
  user_id : Option String
  preferences : Option UserPreferences
  preferences_loaded : Bool
deriving DecidableEq, Repr

/-- The fresh state `__init__` produces for given constructor arguments. -/
def StrategyState.init (session : Bool) (user_id : Option String) : StrategyState :=
  { session := session, user_id := user_id, preferences := none, preferences_loaded := false }

/-- Python truthiness of `self.user_id`: falsy when `None` or `""`. -/
def userIdFalsy : Option String → Bool
  | none => true
  | some s => s == ""

/-- `UserPreferenceSearchStrategy._load_preferences`: call the Preference
Analyzer with `min_likes = 3`; if the call raises, store `None`. The
analyzer itself is passed in as a function of the user id and the
`min_likes` threshold. -/
def load_preferences (st : StrategyState)
    (analyze : String → Int → Except String (Option UserPreferences)) : StrategyState :=
  match analyze (st.user_id.getD "") 3 with
  | .ok prefs => { st with preferences := prefs }
  | .error _ => { st with preferences := none }

/-- `UserPreferenceSearchStrategy.generate_params`, returning the produced
parameters together with the instance state after the call. -/
def generate_params (st : StrategyState)
    (analyze : String → Int → Except String (Option UserPreferences))
    (r : Rand) : SearchParams × StrategyState :=
  if !st.session || userIdFalsy st.user_id then
    (fallback_params r, st)
  else
    let st :=
      if !st.preferences_loaded then
        { load_preferences st analyze with preferences_loaded := true }
      else st
    match st.preferences with
    | none => (fallback_params r, st)
    | some _ => (generate_preference_based_params st.preferences r, st)

/-- What dynamic module resolution can find for a strategy name, from the
registry's point of view: no module at all, a module whose import raises,
or a loaded module that does or does not define a qualifying
`BaseSearchStrategy` subclass. -/
inductive ModuleLoadResult where
  | missing
  | loadFailure
  | loaded (hasStrategyClass : Bool)
deriving DecidableEq, Repr

/-- The strategy instance `get_strategy` returns. `chartKeyword` and the
module for `userPreference` live outside the provided sources.
Modelled from the spec: `chart_keyword` resolution is special-cased and
always succeeds (`ChartKeywordSearchStrategy` takes no arguments). -/
inductive Strategy where
  | chartKeyword
  | userPreference (st : StrategyState)
  | dynamic (name : String)
deriving DecidableEq, Repr

/-- The error message of the `ImportError` raised by `get_strategy`. -/
def strategyNotFoundMessage (strategy_name : String) : String :=
  "Could not load search strategy '" ++ strategy_name ++
    "'. Ensure the module exists and defines a valid strategy class."

/-- `get_strategy` from `search_strategies/__init__.py`: two special-cased
names always succeed; any other name goes through dynamic module discovery
(modelled by `env`), and every failure mode (missing module, module load
failure, no qualifying class) is converted into an `ImportError` whose
message names the requested strategy. -/
def get_strategy (env : String → ModuleLoadResult) (strategy_name : String)
    (kwargs : StrategyState) : Except String Strategy :=
  if strategy_name = "chart_keyword" then .ok .chartKeyword
  else if strategy_name = "user_preference_search" then .ok (.userPreference kwargs)
  else
    match env strategy_name with
    | .loaded true => .ok (.dynamic strategy_name)
    | .loaded false => .error (strategyNotFoundMessage strategy_name)
    | .missing => .error (strategyNotFoundMessage strategy_name)
    | .loadFailure => .error (strategyNotFoundMessage strategy_name)

/-! ### Lemmas about the stable descending sort -/

theorem insertDescBy_perm {α : Type} (key : α → Int) (x : α) (l : List α) :
    (insertDescBy key x l).Perm (x :: l) := by
  induction l with
  | nil => exact List.Perm.refl _
  | cons y ys ih =>
    unfold insertDescBy
    by_cases h : key x < key y
    · simp only [if_pos h]
      exact (ih.cons y).trans (List.Perm.swap x y ys)
    · simp only [if_neg h]
      exact List.Perm.refl _

theorem sortDescBy_perm {α : Type} (key : α → Int) (l : List α) :
    (sortDescBy key l).Perm l := by
  induction l with
  | nil => exact List.Perm.refl _
  | cons x xs ih =>
    exact (insertDescBy_perm key x (sortDescBy key xs)).trans (ih.cons x)

theorem mem_insertDescBy {α : Type} {key : α → Int} {x z : α} {l : List α} :
    z ∈ insertDescBy key x l ↔ z = x ∨ z ∈ l := by
  rw [(insertDescBy_perm key x l).mem_iff, List.mem_cons]

theorem insertDescBy_sorted {α : Type} (key : α → Int) (x : α) (l : List α)
    (h : l.Pairwise (fun a b => key b ≤ key a)) :
    (insertDescBy key x l).Pairwise (fun a b => key b ≤ key a) := by
  induction l with
  | nil => simp [insertDescBy]
  | cons y ys ih =>
    rcases List.pairwise_cons.mp h with ⟨hy, hys⟩
    unfold insertDescBy
    by_cases hk : key x < key y
    · simp only [if_pos hk]
      refine List.pairwise_cons.mpr ⟨?_, ih hys⟩
      intro z hz
      rcases mem_insertDescBy.mp hz with rfl | hz
      · exact le_of_lt hk
      · exact hy z hz
    · simp only [if_neg hk]
      refine List.pairwise_cons.mpr ⟨?_, h⟩
      intro z hz
      rcases List.mem_cons.mp hz with rfl | hz
      · exact le_of_not_lt hk
      · exact le_trans (hy z hz) (le_of_not_lt hk)

theorem sortDescBy_sorted {α : Type} (key : α → Int) (l : List α) :
    (sortDescBy key l).Pairwise (fun a b => key b ≤ key a) := by
  induction l with
  | nil => simp [sortDescBy]
  | cons x xs ih => exact insertDescBy_sorted key x _ ih

theorem insertDescBy_filter {α : Type} (key : α → Int) (x : α) (l : List α) (s : Int) :
    (insertDescBy key x l).filter (fun a => key a == s) =
      if key x == s then x :: l.filter (fun a => key a == s)
      else l.filter (fun a => key a == s) := by
  induction l with
  | nil =>
    by_cases h : key x = s
    · simp [insertDescBy, List.filter_cons, h]
    · simp [insertDescBy, List.filter_cons, h]
  | cons y ys ih =>
    unfold insertDescBy
    by_cases hk : key x < key y
    · simp only [if_pos hk]
      by_cases hxs : key x = s
      · have hys : (key y == s) = false := by
          simp only [beq_eq_false_iff_ne, ne_eq]
          omega
        simp [List.filter_cons, hxs, hys, ih]
      · have hx : (key x == s) = false := by simp [hxs]
        simp [List.filter_cons, hx, ih]
    · simp only [if_neg hk]
      by_cases hxs : key x = s
      · simp [List.filter_cons, hxs]
      · have hx : (key x == s) = false := by simp [hxs]
        simp [List.filter_cons, hx]

theorem sortDescBy_filter {α : Type} (key : α → Int) (l : List α) (s : Int) :
    (sortDescBy key l).filter (fun a => key a == s) = l.filter (fun a => key a == s) := by
  induction l with
  | nil => rfl
  | cons x xs ih =>
    unfold sortDescBy
    rw [insertDescBy_filter, ih, List.filter_cons]

theorem insertDescBy_pairwise {α : Type} (key : α → Int) (R : α → α → Prop) (x : α)
    (l : List α)
    (hl : l.Pairwise (fun a b => key a = key b → R a b))
    (hx : ∀ z ∈ l, key x = key z → R x z) :
    (insertDescBy key x l).Pairwise (fun a b => key a = key b → R a b) := by
  induction l with
  | nil => simp [insertDescBy]
  | cons y ys ih =>
    rcases List.pairwise_cons.mp hl with ⟨hy, hys⟩
    unfold insertDescBy
    by_cases hk : key x < key y
    · simp only [if_pos hk]
      refine List.pairwise_cons.mpr ⟨?_, ?_⟩
      · intro z hz heq
        rcases mem_insertDescBy.mp hz with rfl | hz
        · omega
        · exact hy z hz heq
      · exact ih hys (fun z hz => hx z (List.mem_cons_of_mem y hz))
    · simp only [if_neg hk]
      exact List.pairwise_cons.mpr ⟨fun z hz => hx z hz, hl⟩

theorem sortDescBy_pairwise {α : Type} (key : α → Int) (R : α → α → Prop) (l : List α)
    (hl : l.Pairwise (fun a b => key a = key b → R a b)) :
    (sortDescBy key l).Pairwise (fun a b => key a = key b → R a b) := by
  induction l with
  | nil => simp [sortDescBy]
  | cons x xs ih =>
    rcases List.pairwise_cons.mp hl with ⟨hx, hxs⟩
    refine insertDescBy_pairwise key R x _ (ih hxs) ?_
    intro z hz
    exact hx z ((sortDescBy_perm key xs).mem_iff.mp hz)

/-! ### Lemmas about counting and first-encounter order -/

/-- Index of the first occurrence of `g` while scanning `l` left to right
(`l.length` when `g` does not occur). -/
def firstIdx (g : String) : List String → Nat
  | [] => 0
  | x :: l => if x = g then 0 else firstIdx g l + 1

theorem mem_firstSeenKeys {l : List String} {g : String} :
    g ∈ firstSeenKeys l ↔ g ∈ l := by
  induction l with
  | nil => simp [firstSeenKeys]
  | cons x xs ih =>
    simp only [firstSeenKeys, List.mem_cons, List.mem_filter, bne_iff_ne, ne_eq]
    constructor
    · rintro (rfl | ⟨hg, _⟩)
      · exact Or.inl rfl
      · exact Or.inr (ih.mp hg)
    · rintro (rfl | hg)
      · exact Or.inl rfl
      · by_cases hgx : g = x
        · exact Or.inl hgx
        · exact Or.inr ⟨ih.mpr hg, hgx⟩

theorem firstSeenKeys_pairwise_firstIdx (l : List String) :
    (firstSeenKeys l).Pairwise (fun g h => firstIdx g l < firstIdx h l) := by
  induction l with
  | nil => simp [firstSeenKeys]
  | cons x xs ih =>
    refine List.pairwise_cons.mpr ⟨?_, ?_⟩
    · intro h hh
      have hne : h ≠ x := by simpa using (List.mem_filter.mp hh).2
      have hxh : ¬ (x = h) := fun e => hne e.symm
      simp [firstIdx, hxh]
    · have hf : ((firstSeenKeys xs).filter (fun y => y != x)).Pairwise
          (fun g h => firstIdx g xs < firstIdx h xs) :=
        ih.sublist (List.filter_sublist (firstSeenKeys xs))
      refine hf.imp_of_mem ?_
      intro a b ha hb hab
      have hna : a ≠ x := by simpa using (List.mem_filter.mp ha).2
      have hnb : b ≠ x := by simpa using (List.mem_filter.mp hb).2
      have hxa : ¬ (x = a) := fun e => hna e.symm
      have hxb : ¬ (x = b) := fun e => hnb e.symm
      simp only [firstIdx]
      rw [if_neg hxa, if_neg hxb]
      omega

theorem mem_countOcc {l : List String} {g : String} {c : Nat} :
    (g, c) ∈ countOcc l ↔ g ∈ l ∧ c = l.count g := by
  simp only [countOcc, List.mem_map]
  constructor
  · rintro ⟨k, hk, he⟩
    rcases he
    exact ⟨mem_firstSeenKeys.mp hk, rfl⟩
  · rintro ⟨hg, rfl⟩
    exact ⟨g, mem_firstSeenKeys.mpr hg, rfl⟩

theorem mem_mostCommon {l : List String} {g : String} {c : Nat} :
    (g, c) ∈ mostCommon l ↔ g ∈ l ∧ c = l.count g := by
  rw [mostCommon, (sortDescBy_perm _ (countOcc l)).mem_iff, mem_countOcc]

/-- `most_common()` output is sorted descending by count. -/
theorem mostCommon_sorted (l : List String) :
    (mostCommon l).Pairwise (fun p q => q.2 ≤ p.2) := by
  have h := sortDescBy_sorted (fun p => (p.2 : Int)) (countOcc l)
  exact h.imp (fun hab => by exact_mod_cast hab)

/-- `most_common()` keeps equal-count entries in first-encountered order. -/
theorem mostCommon_stable (l : List String) :
    (mostCommon l).Pairwise (fun p q => p.2 = q.2 → firstIdx p.1 l < firstIdx q.1 l) := by
  have h0 := firstSeenKeys_pairwise_firstIdx l
  have h1 : (countOcc l).Pairwise (fun p q => firstIdx p.1 l < firstIdx q.1 l) :=
    h0.map (fun k => (k, l.count k)) (fun a b hab => hab)
  have h2 : (countOcc l).Pairwise
      (fun p q => ((p.2 : Int) = (q.2 : Int)) → firstIdx p.1 l < firstIdx q.1 l) :=
    h1.imp (fun hab => fun _ => hab)
  have h3 := sortDescBy_pairwise (fun p => (p.2 : Int))
    (fun p q => firstIdx p.1 l < firstIdx q.1 l) (countOcc l) h2
  refine h3.imp ?_
  intro a b hab hnat
  exact hab (congrArg (fun n : Nat => (n : Int)) hnat)

/-- Characterization of the four frequency tables: exact occurrence counts
over the tracks whose field value equals `g`, keys restricted to non-empty
field values. -/
theorem mem_mostCommon_field (f : TrackCache → String) (tracks : List TrackCache)
    (g : String) (c : Nat) :
    (g, c) ∈ mostCommon ((tracks.map f).filter (fun s => s != "")) ↔
      (g ≠ "" ∧ 0 < c ∧ c = (tracks.filter (fun t => f t == g)).length) := by
  rw [mem_mostCommon]
  constructor
  · rintro ⟨hg, rfl⟩
    have hne : g ≠ "" := by simpa using (List.mem_filter.mp hg).2
    have hcount : ((tracks.map f).filter (fun s => s != "")).count g = (tracks.map f).count g :=
      List.count_filter (by simpa using hne)
    have hpos : 0 < ((tracks.map f).filter (fun s => s != "")).count g :=
      List.count_pos_iff.mpr hg
    refine ⟨hne, hpos, ?_⟩
    rw [hcount, List.count_eq_countP, List.countP_map, List.countP_eq_length_filter]
    rfl
  · rintro ⟨hne, hpos, rfl⟩
    have hcount : ((tracks.map f).filter (fun s => s != "")).count g = (tracks.map f).count g :=
      List.count_filter (by simpa using hne)
    have hmapcount : (tracks.map f).count g = (tracks.filter (fun t => f t == g)).length := by
      rw [List.count_eq_countP, List.countP_map, List.countP_eq_length_filter]
      rfl
    refine ⟨?_, ?_⟩
    · apply List.count_pos_iff.mp
      rw [hcount, hmapcount]
      exact hpos
    · rw [hcount, hmapcount]

/-! ### Lemmas about the scored-pair representation -/

theorem map_fst_pairing {α β : Type} (f : α → β) (l : List α) :
    (l.map (fun t => (t, f t))).map Prod.fst = l := by
  rw [List.map_map]
  exact List.map_id l

theorem filter_map_fst (f : Track → Int) (s : Int) (l : List (Track × Int))
    (h : ∀ x ∈ l, x.2 = f x.1) :
    (l.map Prod.fst).filter (fun t => f t == s) =
      (l.filter (fun x => x.2 == s)).map Prod.fst := by
  induction l with
  | nil => rfl
  | cons x xs ih =>
    have hx : x.2 = f x.1 := h x (List.mem_cons_self x xs)
    have hxs : ∀ y ∈ xs, y.2 = f y.1 := fun y hy => h y (List.mem_cons_of_mem x hy)
    simp only [List.map_cons, List.filter_cons, hx]
    by_cases hs : f x.1 = s
    · simp [hs, ih hxs]
    · have hb : (f x.1 == s) = false := by simp [hs]
      simp [hb, ih hxs]

theorem scoreAll_error {scorer : Track → Except String Int} {tracks : List Track}
    (h : ∃ t ∈ tracks, ∃ e : String, scorer t = .error e) :
    ∃ e : String, scoreAll scorer tracks = .error e := by
  induction tracks with
  | nil => simp at h
  | cons t ts ih =>
    rcases h with ⟨u, hu, e, he⟩
    rcases List.mem_cons.mp hu with rfl | hu
    · exact ⟨e, by simp [scoreAll, he]⟩
    · rcases hscorer : scorer t with e0 | s0
      · exact ⟨e0, by simp [scoreAll, hscorer]⟩
      · rcases ih ⟨u, hu, e, he⟩ with ⟨e1, he1⟩
        exact ⟨e1, by simp [scoreAll, hscorer, he1]⟩

theorem scoreAll_pure (preferences : UserPreferences) (tracks : List Track) :
    scoreAll (fun t => .ok (score_track t preferences)) tracks =
      .ok (tracks.map (fun t => (t, score_track t preferences))) := by
  induction tracks with
  | nil => rfl
  | cons t ts ih => simp [scoreAll, ih]

/-- With the actual (total) scoring function, the fallible model coincides
with `personalize_tracks`. -/
theorem personalize_tracks_fallible_pure
    (analyzerResult : Except String (Option UserPreferences)) (tracks : List Track) :
    personalize_tracks_fallible analyzerResult
        (fun p t => .ok (score_track t p)) tracks =
      personalize_tracks analyzerResult tracks := by
  unfold personalize_tracks_fallible personalize_tracks
  rcases analyzerResult with e | popt
  · rfl
  · rcases popt with _ | p
    · rfl
    · simp [scoreAll_pure]

theorem chooseFrom_mem {α : Type} {l : List α} (h : l ≠ []) (i : Nat) :
    ∃ a, chooseFrom l i = some a ∧ a ∈ l := by
  have hlen : 0 < l.length := List.length_pos.mpr h
  have hmod : i % l.length < l.length := Nat.mod_lt i hlen
  exact ⟨l.get ⟨i % l.length, hmod⟩, List.get?_eq_get hmod, List.get_mem l _ _⟩

/-! ### Claim theorems -/

/-- C1: for every track list and analyzer outcome, `personalize_tracks`
returns a permutation of its input; in every degraded path — empty input,
absent preference profile, or a caught exception — it returns the exact
original list in its original order, and for an empty input list the result
is `[]` whatever the analyzer would have answered (the analyzer is not
consulted). -/
theorem C1_personalize_permutation_and_degraded_paths
    (analyzerResult : Except String (Option UserPreferences)) (tracks : List Track) :
    (personalize_tracks analyzerResult tracks).Perm tracks ∧
    (∀ a : Except String (Option UserPreferences), personalize_tracks a [] = []) ∧
    (∀ e : String, personalize_tracks (.error e) tracks = tracks) ∧
    personalize_tracks (.ok none) tracks = tracks := by
  refine ⟨?_, ?_, ?_, ?_⟩
  · rcases analyzerResult with e | popt
    · simp [personalize_tracks]
    · rcases popt with _ | preferences
      · simp [personalize_tracks]
      · by_cases h : tracks = []
        · subst h
          simp [personalize_tracks]
        · have hne : tracks.isEmpty = false := by
            simpa [List.isEmpty_iff] using h
          have hperm := sortDescBy_perm (fun x : Track × Int => x.2)
            (tracks.map (fun t => (t, score_track t preferences)))
          have hmap := hperm.map Prod.fst
          rw [map_fst_pairing] at hmap
          simpa [personalize_tracks, hne] using hmap
  · intro a
    simp [personalize_tracks]
  · intro e
    simp [personalize_tracks]
  · simp [personalize_tracks]

/-- C2: the per-track score decomposes into four independent additive
clauses — `+10 + count` for a non-empty genre in `liked_genres`, a flat
`-5` for a non-empty genre in `disliked_genres`, `+15 + 2*count` for a
non-empty artist in `liked_artists`, a flat `-10` for a non-empty artist in
`disliked_artists` — and on the spec's example preferences the Rock/Rock
Band track scores 31, the Jazz/Jazz Artist track scores -5, and
personalization places the Rock track before the Jazz track. -/
theorem C2_score_track_additive_clauses_and_example
    (track : Track) (preferences : UserPreferences) :
    score_track track preferences =
      (if track.genre ≠ "" then
        (match dictLookup preferences.liked_genres track.genre with
         | some count => 10 + (count : Int)
         | none => 0)
       else 0) +
      (if track.genre ≠ "" ∧ (dictLookup preferences.disliked_genres track.genre).isSome
       then -5 else 0) +
      (if track.artist ≠ "" then
        (match dictLookup preferences.liked_artists track.artist with
         | some count => 15 + 2 * (count : Int)
         | none => 0)
       else 0) +
      (if track.artist ≠ "" ∧ (dictLookup preferences.disliked_artists track.artist).isSome
       then -10 else 0) ∧
    score_track ⟨"Rock", "Rock Band"⟩
      ⟨[("Rock", 2), ("Pop", 1)], [("Rock Band", 2)], [("Jazz", 1)], [], 3, 1⟩ = 31 ∧
    score_track ⟨"Jazz", "Jazz Artist"⟩
      ⟨[("Rock", 2), ("Pop", 1)], [("Rock Band", 2)], [("Jazz", 1)], [], 3, 1⟩ = -5 ∧
    personalize_tracks
      (.ok (some ⟨[("Rock", 2), ("Pop", 1)], [("Rock Band", 2)], [("Jazz", 1)], [], 3, 1⟩))
      [⟨"Jazz", "Jazz Artist"⟩, ⟨"Rock", "Rock Band"⟩] =
      [⟨"Rock", "Rock Band"⟩, ⟨"Jazz", "Jazz Artist"⟩] := by
  refine ⟨?_, by decide, by decide, by decide⟩
  by_cases hg : track.genre = "" <;> by_cases ha : track.artist = "" <;>
    rcases h1 : dictLookup preferences.liked_genres track.genre with _ | c1 <;>
    rcases h2 : dictLookup preferences.disliked_genres track.genre with _ | c2 <;>
    rcases h3 : dictLookup preferences.liked_artists track.artist with _ | c3 <;>
    rcases h4 : dictLookup preferences.disliked_artists track.artist with _ | c4 <;>
    simp [score_track, hg, ha, h1, h2, h3, h4] <;> ring

/-- C3: on the personalization path the output is sorted by weakly
descending score, and for every score value the subsequence of tracks with
that score is exactly the corresponding subsequence of the input — a stable
descending sort, so equal-score tracks retain their relative input order. -/
theorem C3_stable_descending_sort
    (preferences : UserPreferences) (tracks : List Track) (s : Int) :
    ((personalize_tracks (.ok (some preferences)) tracks).map
        (fun t => score_track t preferences)).Pairwise (fun a b => b ≤ a) ∧
    (personalize_tracks (.ok (some preferences)) tracks).filter
        (fun t => score_track t preferences == s) =
      tracks.filter (fun t => score_track t preferences == s) := by
  by_cases h : tracks = []
  · subst h
    simp [personalize_tracks]
  · have hne : tracks.isEmpty = false := by simpa [List.isEmpty_iff] using h
    have hres : personalize_tracks (.ok (some preferences)) tracks =
        (sortDescBy (fun x : Track × Int => x.2)
          (tracks.map (fun t => (t, score_track t preferences)))).map Prod.fst := by
      simp [personalize_tracks, hne]
    have hinv : ∀ x ∈ sortDescBy (fun x : Track × Int => x.2)
        (tracks.map (fun t => (t, score_track t preferences))),
        x.2 = score_track x.1 preferences := by
      intro x hx
      have hx2 := (sortDescBy_perm (fun x : Track × Int => x.2)
        (tracks.map (fun t => (t, score_track t preferences)))).mem_iff.mp hx
      rcases List.mem_map.mp hx2 with ⟨t, _, rfl⟩
      rfl
    constructor
    · rw [hres, List.map_map]
      rw [List.pairwise_map]
      have hsorted := sortDescBy_sorted (fun x : Track × Int => x.2)
        (tracks.map (fun t => (t, score_track t preferences)))
      refine hsorted.imp_of_mem ?_
      intro a b ha hb hab
      have h2a := hinv a ha
      have h2b := hinv b hb
      simpa [Function.comp, ← h2a, ← h2b] using hab
    · rw [hres]
      rw [filter_map_fst (fun t => score_track t preferences) s _ hinv]
      rw [sortDescBy_filter (fun x : Track × Int => x.2)
        (tracks.map (fun t => (t, score_track t preferences))) s]
      rw [← filter_map_fst (fun t => score_track t preferences) s _ (by
        intro x hx
        rcases List.mem_map.mp hx with ⟨t, _, rfl⟩
        rfl)]
      rw [map_fst_pairing]

/-- C4: when both read queries succeed, `analyze_preferences` returns
absent exactly when the liked-track count is strictly below `min_likes`
(the disliked count plays no role in the test), and any present result
carries `total_likes` and `total_dislikes` equal to the two list lengths. -/
theorem C4_threshold_and_totals
    (liked disliked : List TrackCache) (min_likes : Int) :
    (analyze_preferences (.ok liked) (.ok disliked) min_likes = none ↔
      (liked.length : Int) < min_likes) ∧
    (∀ p : UserPreferences,
      analyze_preferences (.ok liked) (.ok disliked) min_likes = some p →
        p.total_likes = liked.length ∧ p.total_dislikes = disliked.length) := by
  by_cases h : (liked.length : Int) < min_likes
  · constructor
    · simp [analyze_preferences, h]
    · intro p hp
      simp [analyze_preferences, h] at hp
  · constructor
    · simp [analyze_preferences, h]
    · intro p hp
      simp only [analyze_preferences, if_neg h, Option.some.injEq] at hp
      subst hp
      exact ⟨rfl, rfl⟩

/-- C4 witness: a concrete user with one liked and no disliked track at
threshold 1 yields a present profile with exact totals. -/
theorem C4_threshold_and_totals_witness :
    UserPreferences.total_likes
        ⟨[("Rock", 1)], [("A", 1)], [], [], 1, 0⟩ = 1 ∧
    UserPreferences.total_dislikes
        ⟨[("Rock", 1)], [("A", 1)], [], [], 1, 0⟩ = 0 :=
  (C4_threshold_and_totals [⟨"Rock", "A"⟩] [] 1).2
    ⟨[("Rock", 1)], [("A", 1)], [], [], 1, 0⟩ (by decide)

/-- C10: for any `min_likes ≤ 0`, successful reads never yield an absent
result — even a user with no evaluations gets a present profile with four
empty tables and zero totals, because the insufficiency test is the strict
comparison `liked-count < min_likes`. -/
theorem C10_nonpositive_min_likes_never_absent
    (min_likes : Int) (h : min_likes ≤ 0)
    (liked disliked : List TrackCache) :
    (analyze_preferences (.ok liked) (.ok disliked) min_likes).isSome = true ∧
    analyze_preferences (.ok []) (.ok []) min_likes =
      some ⟨[], [], [], [], 0, 0⟩ := by
  constructor
  · have hlt : ¬ ((liked.length : Int) < min_likes) := by omega
    simp [analyze_preferences, hlt]
  · have hlt : ¬ (((List.length ([] : List TrackCache)) : Int) < min_likes) := by
      simp only [List.length_nil]
      omega
    simp only [analyze_preferences, if_neg hlt]
    rfl

/-- C10 witness: at `min_likes = 0` a user with zero evaluations receives
the empty present profile. -/
theorem C10_nonpositive_min_likes_never_absent_witness :
    (analyze_preferences (.ok []) (.ok []) 0).isSome = true ∧
    analyze_preferences (.ok []) (.ok []) 0 = some ⟨[], [], [], [], 0, 0⟩ :=
  C10_nonpositive_min_likes_never_absent 0 (by decide) [] []

/-- C6: every failure inside the analyze-score-reorder pipeline degrades:
an exception in either read query of the analyzer yields an absent result,
an exception from the analyzer inside `personalize_tracks` yields the
original list, and an exception while scoring any track yields the original
list; all the modelled functions are total, so no exception reaches the
caller. -/
theorem C6_degrade_never_propagate :
    (∀ (e : String) (dislikedRead : Except String (List TrackCache)) (min_likes : Int),
      analyze_preferences (.error e) dislikedRead min_likes = none) ∧
    (∀ (likedRead : Except String (List TrackCache)) (e : String) (min_likes : Int),
      analyze_preferences likedRead (.error e) min_likes = none) ∧
    (∀ (e : String) (scorer : UserPreferences → Track → Except String Int)
        (tracks : List Track),
      personalize_tracks_fallible (.error e) scorer tracks = tracks) ∧
    (∀ (preferences : UserPreferences)
        (scorer : UserPreferences → Track → Except String Int) (tracks : List Track),
      (∃ t ∈ tracks, ∃ e : String, scorer preferences t = .error e) →
      personalize_tracks_fallible (.ok (some preferences)) scorer tracks = tracks) := by
  refine ⟨?_, ?_, ?_, ?_⟩
  · intro e dislikedRead min_likes
    rfl
  · intro likedRead e min_likes
    rcases likedRead with e0 | l
    · rfl
    · rfl
  · intro e scorer tracks
    unfold personalize_tracks_fallible
    simp
  · intro preferences scorer tracks h
    rcases scoreAll_error h with ⟨e, he⟩
    unfold personalize_tracks_fallible
    simp [he]

/-- C6 witness: a raising analyzer and a raising scorer on concrete inputs
both return the original one-track list, and raising reads yield absent. -/
theorem C6_degrade_never_propagate_witness :
    personalize_tracks_fallible (.ok (some ⟨[], [], [], [], 0, 0⟩))
        (fun _ _ => .error "boom") [⟨"Rock", "A"⟩] = [⟨"Rock", "A"⟩] :=
  C6_degrade_never_propagate.2.2.2 ⟨[], [], [], [], 0, 0⟩ (fun _ _ => .error "boom")
    [⟨"Rock", "A"⟩] ⟨⟨"Rock", "A"⟩, by decide, "boom", rfl⟩

theorem fallback_term_mem (r : Rand) : (fallback_params r).term ∈ default_terms := by
  have h5 : r.fallbackIdx % default_terms.length < default_terms.length :=
    Nat.mod_lt _ (by decide)
  show default_terms.getD (r.fallbackIdx % default_terms.length) "" ∈ default_terms
  rw [List.getD_eq_getElem default_terms "" h5]
  exact List.getElem_mem h5

/-- C5: each of the four frequency tables holds exact occurrence counts over
tracks with a non-empty field only (empty/absent fields feed no table), is
sorted descending by count, and keeps equal-count entries in the order their
values were first encountered while scanning the input list. -/
theorem C5_frequency_tables (tracks : List TrackCache) :
    (∀ (g : String) (c : Nat),
      (g, c) ∈ count_genres tracks ↔
        (g ≠ "" ∧ 0 < c ∧ c = (tracks.filter (fun t => t.primary_genre == g)).length)) ∧
    (∀ (a : String) (c : Nat),
      (a, c) ∈ count_artists tracks ↔
        (a ≠ "" ∧ 0 < c ∧ c = (tracks.filter (fun t => t.artist == a)).length)) ∧
    (count_genres tracks).Pairwise (fun p q => q.2 ≤ p.2) ∧
    (count_artists tracks).Pairwise (fun p q => q.2 ≤ p.2) ∧
    (count_genres tracks).Pairwise (fun p q => p.2 = q.2 →
      firstIdx p.1 ((tracks.map TrackCache.primary_genre).filter (fun s => s != "")) <
        firstIdx q.1 ((tracks.map TrackCache.primary_genre).filter (fun s => s != ""))) ∧
    (count_artists tracks).Pairwise (fun p q => p.2 = q.2 →
      firstIdx p.1 ((tracks.map TrackCache.artist).filter (fun s => s != "")) <
        firstIdx q.1 ((tracks.map TrackCache.artist).filter (fun s => s != ""))) :=
  ⟨fun g c => mem_mostCommon_field TrackCache.primary_genre tracks g c,
    fun a c => mem_mostCommon_field TrackCache.artist tracks a c,
    mostCommon_sorted _, mostCommon_sorted _, mostCommon_stable _, mostCommon_stable _⟩

/-- C7: without a store handle or user id (or with a loaded-but-absent
profile, or a load that returns absent or raises) the strategy emits
fallback-shaped parameters — a term from the fixed vocabulary, entity
`"song"`, no attribute; with a present profile whose liked genres and
artists are non-empty, the term comes only from the top-3 liked genres
(attribute `"genreIndex"`) when `random.random() < 0.7`, and otherwise only
from the top-3 liked artists (attribute `"artistTerm"`). -/
theorem C7_params_shape (st : StrategyState)
    (analyze : String → Int → Except String (Option UserPreferences)) (r : Rand) :
    ((fallback_params r).term ∈ default_terms ∧ (fallback_params r).entity = "song" ∧
      (fallback_params r).attr = none) ∧
    ((st.session = false ∨ userIdFalsy st.user_id = true) →
      (generate_params st analyze r).1 = fallback_params r) ∧
    (st.session = true → userIdFalsy st.user_id = false → st.preferences_loaded = true →
      st.preferences = none → (generate_params st analyze r).1 = fallback_params r) ∧
    (st.session = true → userIdFalsy st.user_id = false → st.preferences_loaded = false →
      (analyze (st.user_id.getD "") 3 = .ok none ∨
        (∃ e : String, analyze (st.user_id.getD "") 3 = .error e)) →
      (generate_params st analyze r).1 = fallback_params r) ∧
    (∀ p : UserPreferences, st.session = true → userIdFalsy st.user_id = false →
      st.preferences_loaded = true → st.preferences = some p →
      p.liked_genres ≠ [] → p.liked_artists ≠ [] →
      ((r.randVal < 7 / 10 ∧
        (generate_params st analyze r).1.term ∈ p.get_top_genres 3 ∧
        (generate_params st analyze r).1.attr = some "genreIndex") ∨
       (¬ (r.randVal < 7 / 10) ∧
        (generate_params st analyze r).1.term ∈ p.get_top_artists 3 ∧
        (generate_params st analyze r).1.attr = some "artistTerm"))) := by
  refine ⟨⟨fallback_term_mem r, rfl, rfl⟩, ?_, ?_, ?_, ?_⟩
  · intro h
    rcases h with h | h <;> simp [generate_params, h]
  · intro hs hu hl hp
    simp [generate_params, hs, hu, hl, hp]
  · intro hs hu hl hload
    rcases hload with h | ⟨e, h⟩ <;>
      simp [generate_params, hs, hu, hl, load_preferences, h]
  · intro p hs hu hl hp hg ha
    have hres : generate_params st analyze r =
        (generate_preference_based_params (some p) r, st) := by
      simp [generate_params, hs, hu, hl, hp]
    rw [hres]
    have htopg : p.get_top_genres 3 ≠ [] := by
      simp [UserPreferences.get_top_genres, List.map_eq_nil_iff, List.take_eq_nil_iff, hg]
    have htopa : p.get_top_artists 3 ≠ [] := by
      simp [UserPreferences.get_top_artists, List.map_eq_nil_iff, List.take_eq_nil_iff, ha]
    by_cases hr : r.randVal < 7 / 10
    · obtain ⟨g, hcf, hgmem⟩ := chooseFrom_mem htopg r.genreIdx
      left
      refine ⟨hr, ?_, ?_⟩ <;> simp [generate_preference_based_params, hr, hcf, hgmem]
    · obtain ⟨a, hcf, hamem⟩ := chooseFrom_mem htopa r.artistIdx
      right
      refine ⟨hr, ?_, ?_⟩ <;> simp [generate_preference_based_params, hr, hcf, hamem]

/-- C7 witness: with a present profile, liked genre Rock and liked artist A,
and `random.random() = 1/2 < 0.7`, the emitted parameters take the
genre branch with term from the top-3 liked genres. -/
theorem C7_params_shape_witness :
    ((1 : ℚ) / 2 < 7 / 10 ∧
      (generate_params ⟨true, some "u", some ⟨[("Rock", 2)], [("A", 1)], [], [], 3, 0⟩, true⟩
          (fun _ _ => .ok none) ⟨1/2, 0, 0, 0⟩).1.term ∈
        (⟨[("Rock", 2)], [("A", 1)], [], [], 3, 0⟩ : UserPreferences).get_top_genres 3 ∧
      (generate_params ⟨true, some "u", some ⟨[("Rock", 2)], [("A", 1)], [], [], 3, 0⟩, true⟩
          (fun _ _ => .ok none) ⟨1/2, 0, 0, 0⟩).1.attr = some "genreIndex") ∨
    (¬ ((1 : ℚ) / 2 < 7 / 10) ∧
      (generate_params ⟨true, some "u", some ⟨[("Rock", 2)], [("A", 1)], [], [], 3, 0⟩, true⟩
          (fun _ _ => .ok none) ⟨1/2, 0, 0, 0⟩).1.term ∈
        (⟨[("Rock", 2)], [("A", 1)], [], [], 3, 0⟩ : UserPreferences).get_top_artists 3 ∧
      (generate_params ⟨true, some "u", some ⟨[("Rock", 2)], [("A", 1)], [], [], 3, 0⟩, true⟩
          (fun _ _ => .ok none) ⟨1/2, 0, 0, 0⟩).1.attr = some "artistTerm") :=
  (C7_params_shape ⟨true, some "u", some ⟨[("Rock", 2)], [("A", 1)], [], [], 3, 0⟩, true⟩
      (fun _ _ => .ok none) ⟨1/2, 0, 0, 0⟩).2.2.2.2
    ⟨[("Rock", 2)], [("A", 1)], [], [], 3, 0⟩ rfl rfl rfl rfl (by decide) (by decide)

/-- C8: with a store handle and user id, the first `generate_params` call
loads the profile through the analyzer at `min_likes = 3` (a raising load
caches absent) and marks the instance loaded; once loaded, the state is
never changed again and the call result does not depend on the analyzer,
i.e. the analyzer is never re-queried. -/
theorem C8_lazy_one_time_load (st : StrategyState)
    (analyze analyze2 : String → Int → Except String (Option UserPreferences)) (r : Rand) :
    (st.session = true → userIdFalsy st.user_id = false → st.preferences_loaded = false →
      ((generate_params st analyze r).2.preferences_loaded = true ∧
       (generate_params st analyze r).2.preferences =
         (match analyze (st.user_id.getD "") 3 with
          | .ok prefs => prefs
          | .error _ => none))) ∧
    (st.preferences_loaded = true →
      ((generate_params st analyze r).2 = st ∧
       generate_params st analyze r = generate_params st analyze2 r)) := by
  constructor
  · intro hs hu hl
    rcases ha : analyze (st.user_id.getD "") 3 with e | prefs
    · simp [generate_params, hs, hu, hl, load_preferences, ha]
    · rcases prefs with _ | p <;>
        simp [generate_params, hs, hu, hl, load_preferences, ha]
  · intro hl
    by_cases hcond : (!st.session || userIdFalsy st.user_id) = true
    · constructor <;> simp [generate_params, hcond]
    · rcases hp : st.preferences with _ | p <;>
        constructor <;> simp [generate_params, hcond, hl, hp]

/-- C8 witness: a fresh instance whose analyzer raises ends up loaded with
an absent cached profile, exactly once. -/
theorem C8_lazy_one_time_load_witness :
    ((generate_params ⟨true, some "u", none, false⟩ (fun _ _ => .error "db down")
        ⟨0, 0, 0, 0⟩).2.preferences_loaded = true ∧
     (generate_params ⟨true, some "u", none, false⟩ (fun _ _ => .error "db down")
        ⟨0, 0, 0, 0⟩).2.preferences = none) :=
  (C8_lazy_one_time_load ⟨true, some "u", none, false⟩ (fun _ _ => .error "db down")
      (fun _ _ => .ok none) ⟨0, 0, 0, 0⟩).1 rfl rfl rfl

/-- C9: `resolve("chart_keyword")` and
`resolve("user_preference_search", **kwargs)` always succeed; any other
name whose module is missing, fails to load, or defines no qualifying
strategy class yields the strategy-not-found error, whose message contains
the requested name. -/
theorem C9_registry_resolution (env : String → ModuleLoadResult) (kwargs : StrategyState) :
    get_strategy env "chart_keyword" kwargs = .ok .chartKeyword ∧
    get_strategy env "user_preference_search" kwargs = .ok (.userPreference kwargs) ∧
    (∀ name : String, name ≠ "chart_keyword" → name ≠ "user_preference_search" →
      (env name = .missing ∨ env name = .loadFailure ∨ env name = .loaded false) →
      get_strategy env name kwargs = .error (strategyNotFoundMessage name)) ∧
    (∀ name : String, ∃ pre post : String,
      strategyNotFoundMessage name = pre ++ name ++ post) := by
  refine ⟨rfl, rfl, ?_, ?_⟩
  · intro name h1 h2 h3
    unfold get_strategy
    rw [if_neg h1, if_neg h2]
    rcases h3 with h | h | h <;> rw [h]
  · intro name
    exact ⟨"Could not load search strategy '",
      "'. Ensure the module exists and defines a valid strategy class.", rfl⟩

/-- C9 witness: resolving the name `does-not-exist` against an environment
with no such module fails with the not-found error naming it. -/
theorem C9_registry_resolution_witness :
    get_strategy (fun _ => .missing) "does-not-exist" ⟨false, none, none, false⟩ =
      .error (strategyNotFoundMessage "does-not-exist") :=
  (C9_registry_resolution (fun _ => .missing) ⟨false, none, none, false⟩).2.2.1
    "does-not-exist" (by decide) (by decide) (Or.inl rfl)

end Otodoki
